import Mathlib

/-!
# Verification of the redis-backed typed-collection client

Shallow embedding of the `redis-backed` crate (src/lib.rs, src/database.rs,
src/collections/{mod,list,set}.rs) together with the parts of its environment
that its behaviour depends on at the boundary: the redis commands it issues
(LPUSH, RPUSH, LPOP, RPOP, LINDEX, LREM, LINSERT, DEL, SCARD, ...) and the
reply-conversion performed by the redis client library for the reply types the
crate requests.

Modelling conventions:
* A redis list value is a `List Cbor`, written in redis order (head = left).
  A nonexistent key and an empty list are the same state in redis (a list key
  is deleted when its last element is removed), so the empty list models the
  absent key.
* Stored byte strings are modelled by their (self-describing, injectively
  encoded) CBOR data model; `Cbor` below is the fragment of that data model
  the development needs.
* Each collection operation is a function from the current value of its key
  (and, where relevant, a store or connection world) to a result paired with
  the updated value, mirroring one network round trip.
-/

/-- Fragment of the CBOR data model used to represent the byte strings that
`serde_cbor::to_vec` produces and the collection operations store in redis.
The encoding of a value is self-describing, so one stored byte string
corresponds to exactly one `Cbor` term. -/
inductive Cbor where
  | null
  | int (n : Int)
  | text (s : String)
deriving DecidableEq

/-- Serialization failures of the codec layer, the `serde_cbor::error::Error`
side of the crate's error type (src/lib.rs). Only the fact of failure matters
to the embedding. -/
inductive SerdeErr where
  | decodeFailure
deriving DecidableEq

/-- Errors reported by the redis client library: a reply that cannot be
converted to the Rust type the caller requested, or an invalid connection
address rejected by `Client::open`. -/
inductive RedisErr where
  | typeError
  | invalidClientConfig
deriving DecidableEq

/-- The crate's error type (src/lib.rs, `enum Error`). The
`invalidNotification` variant is constructed in src/collections/set.rs
(`Error::InvalidNotification { type_name, notification }`); its declaration is
absent from the `Error` enum as given in src/lib.rs, so that variant is
modelled from the spec: "a parse error carrying the offending payload and the
collection kind name". -/
inductive Error where
  | redisError (e : RedisErr)
  | serializationError (e : SerdeErr)
  | invalidNotification (typeName : String) (payload : String)
deriving DecidableEq

deriving instance DecidableEq for Except

/-- Lifts a codec failure into the crate's error type, as the
`From<serde_cbor::error::Error> for Error` impl in src/lib.rs does via `?`. -/
def liftSerde : Except SerdeErr β → Except Error β
  | .ok b => .ok b
  | .error e => .error (.serializationError e)

/-- A serializable/deserializable element type (the `T: Serialize +
DeserializeOwned` bound on every collection): an encoder into the CBOR data
model, a decoder, and the round-trip law that spec section 8 states as a hard
contract of the codec. -/
structure Codec (α : Type) where
  enc : α → Cbor
  dec : Cbor → Except SerdeErr α
  law : ∀ a, dec (enc a) = .ok a

/-- Codec instance for integers (CBOR integer encoding). -/
def cInt : Codec Int :=
  ⟨fun n => .int n,
   fun b => match b with
     | .int n => .ok n
     | _ => .error .decodeFailure,
   fun _ => rfl⟩

/-- Codec instance for an optional integer. `serde_cbor` serializes `None` as
the CBOR null value and `Some n` as the encoding of `n`; this instance is the
concrete witness for the "None of an Option element type" example. -/
def cOptInt : Codec (Option Int) :=
  ⟨fun x => match x with
     | none => .null
     | some n => .int n,
   fun b => match b with
     | .null => .ok none
     | .int n => .ok (some n)
     | _ => .error .decodeFailure,
   fun a => by cases a <;> rfl⟩

/-- Deserialization of a byte string at type `Option<T>`, as serde performs it
for the `Option<T>`-typed `from_slice` calls in `pop_front`/`pop_back`
(src/collections/list.rs lines 58-85): the CBOR null value decodes to `None`,
any other value decodes through `T`'s deserializer under `Some`. -/
def decodeOpt (c : Codec α) (b : Cbor) : Except SerdeErr (Option α) :=
  match b with
  | .null => .ok none
  | b => (c.dec b).map some

/-- Pops from the front of the crate's list, i.e. `List::pop_front`
(src/collections/list.rs lines 58-70): issues RPOP (the crate's "front" is the
redis right/tail end), receives an optional byte string, and decodes it at
type `Option<T>`. The store is updated by the remote RPOP even when the
client-side decode fails. -/
def RList.popFront (c : Codec α) (l : List Cbor) : Except Error (Option α) × List Cbor :=
  match l.getLast? with
  | none => (.ok none, l)
  | some b => (liftSerde (decodeOpt c b), l.dropLast)

/-- Pops from the back of the crate's list, i.e. `List::pop_back`
(src/collections/list.rs lines 73-85): issues LPOP (the redis left/head end)
and decodes the optional byte string at type `Option<T>`. -/
def RList.popBack (c : Codec α) (l : List Cbor) : Except Error (Option α) × List Cbor :=
  match l with
  | [] => (.ok none, l)
  | b :: rest => (liftSerde (decodeOpt c b), rest)

/-- Pushes to the front of the crate's list, i.e. `List::push_front`
(src/collections/list.rs lines 153-164): serializes the element and issues
RPUSH, appending at the redis right/tail end. -/
def RList.pushFront (c : Codec α) (l : List Cbor) (item : α) : Except Error Unit × List Cbor :=
  (.ok (), l ++ [c.enc item])

/-- Pushes to the back of the crate's list, i.e. `List::push_back`
(src/collections/list.rs lines 167-178): serializes the element and issues
LPUSH, prepending at the redis left/head end. -/
def RList.pushBack (c : Codec α) (l : List Cbor) (item : α) : Except Error Unit × List Cbor :=
  (.ok (), c.enc item :: l)

/-- The LINDEX command: element at index `i` of the list, zero-based, with a
negative index counting from the tail (`-1` is the last element); a nil reply
when the index designates no element. -/
def lindex (l : List Cbor) (i : Int) : Option Cbor :=
  let j : Int := if i < 0 then (l.length : Int) + i else i
  if 0 ≤ j then l[j.toNat]? else none

/-- Gets the element at an index, i.e. `List::index` (src/collections/list.rs
lines 92-102): issues LINDEX and converts the reply to a plain byte string
before decoding it at type `T`. A nil reply (index out of range) is not
convertible to the requested byte-string type, so the conversion step of the
redis client library reports a type error; in client versions where a nil
reply instead converts to an empty byte vector, the CBOR decode of empty input
fails — either way the operation returns an error, never an empty result. -/
def RList.index (c : Codec α) (l : List Cbor) (i : Int) : Except Error α :=
  match lindex l i with
  | none => .error (.redisError .typeError)
  | some b => liftSerde (c.dec b)

/-- Head-to-tail removal pass of the LREM command: removes up to `n`
occurrences of `b` scanning from the head, returning the remaining list and
the number of elements removed. -/
def lremPos : List Cbor → Nat → Cbor → List Cbor × Nat
  | l, 0, _ => (l, 0)
  | [], _ + 1, _ => ([], 0)
  | x :: xs, n + 1, b =>
    if x = b then
      let r := lremPos xs n b
      (r.1, r.2 + 1)
    else
      let r := lremPos xs (n + 1) b
      (x :: r.1, r.2)

/-- Remove-all mode of the LREM command (`count == 0`): removes every
occurrence of `b`, returning the remaining list and the removal count. -/
def lremAll : List Cbor → Cbor → List Cbor × Nat
  | [], _ => ([], 0)
  | x :: xs, b =>
    let r := lremAll xs b
    if x = b then (r.1, r.2 + 1) else (x :: r.1, r.2)

/-- The LREM command: `count > 0` removes up to `count` occurrences scanning
head to tail, `count < 0` removes up to `|count|` occurrences scanning tail to
head, `count = 0` removes all occurrences; the reply is the number of elements
removed. -/
def lrem (l : List Cbor) (count : Int) (b : Cbor) : List Cbor × Nat :=
  if 0 < count then
    lremPos l count.toNat b
  else if count < 0 then
    let r := lremPos l.reverse (-count).toNat b
    (r.1.reverse, r.2)
  else
    lremAll l b

/-- Removes occurrences of an element, i.e. `List::remove`
(src/collections/list.rs lines 192-203): serializes the element and issues
LREM. The `count` parameter has the unsigned type `u32` in the source, so the
command argument is the nonnegative integer `Int.ofNat count`. Returns the
number of elements removed (a `u32` in the source). -/
def RList.remove (c : Codec α) (l : List Cbor) (count : Nat) (item : α) :
    Except Error Nat × List Cbor :=
  let r := lrem l (Int.ofNat count) (c.enc item)
  (.ok r.2, r.1)

/-- Insertion pass of LINSERT BEFORE: inserts `vb` before the first occurrence
of `pb`, or reports `none` when the pivot does not occur. -/
def linsertB (pb vb : Cbor) : List Cbor → Option (List Cbor)
  | [] => none
  | x :: xs =>
    if x = pb then some (vb :: x :: xs)
    else (linsertB pb vb xs).map (x :: ·)

/-- Insertion pass of LINSERT AFTER: inserts `vb` after the first occurrence
of `pb`, or reports `none` when the pivot does not occur. -/
def linsertA (pb vb : Cbor) : List Cbor → Option (List Cbor)
  | [] => none
  | x :: xs =>
    if x = pb then some (x :: vb :: xs)
    else (linsertA pb vb xs).map (x :: ·)

/-- Reply of the LINSERT command: `0` when the key does not exist (empty
list), `-1` when the pivot is not found, and the length of the list after the
insertion otherwise. -/
def linsertReply (l : List Cbor) (inserted : Option (List Cbor)) : Int × List Cbor :=
  if l = [] then (0, l)
  else
    match inserted with
    | some l2 => ((l2.length : Int), l2)
    | none => (-1, l)

/-- Inserts before the first occurrence of a pivot, i.e. `List::insert_before`
(src/collections/list.rs lines 207-219): serializes pivot and value, issues
LINSERT BEFORE, and returns `reply != -1`. -/
def RList.insertBefore (c : Codec α) (l : List Cbor) (pivot value : α) :
    Except Error Bool × List Cbor :=
  let r := linsertReply l (linsertB (c.enc pivot) (c.enc value) l)
  (.ok (r.1 != -1), r.2)

/-- Inserts after the first occurrence of a pivot, i.e. `List::insert_after`
(src/collections/list.rs lines 223-235): serializes pivot and value, issues
LINSERT AFTER, and returns `reply != -1`. -/
def RList.insertAfter (c : Codec α) (l : List Cbor) (pivot value : α) :
    Except Error Bool × List Cbor :=
  let r := linsertReply l (linsertA (c.enc pivot) (c.enc value) l)
  (.ok (r.1 != -1), r.2)

/-- Generic notification events applying to all key types
(src/collections/mod.rs lines 24-29). -/
inductive GenericWatchEvent where
  | remove
deriving DecidableEq

/-- An event produced by a modification of a watched key
(src/collections/mod.rs lines 31-38): either a generic event or a
collection-kind-specific one. -/
inductive WatchEvent (ε : Type) where
  | generic (g : GenericWatchEvent)
  | typeSpecific (e : ε)
deriving DecidableEq

/-- Parses a notification payload into a `WatchEvent`, i.e. the
`FromStr for WatchEvent<T>` impl (src/collections/mod.rs lines 40-49): the
literal payload "del" maps to `Generic(Remove)`; every other payload is
delegated to the collection-kind-specific parser `parse`. -/
def WatchEvent.fromStr (parse : String → Except Error ε) (s : String) :
    Except Error (WatchEvent ε) :=
  if s = "del" then .ok (.generic .remove)
  else (parse s).map .typeSpecific

/-- The List collection's type-specific event type
(src/collections/list.rs lines 25-28). -/
inductive ListEvent where
  | E
deriving DecidableEq

/-- The `FromStr for ListEvent` impl (src/collections/list.rs lines 30-36):
accepts every payload, ignoring its contents. -/
def ListEvent.fromStr (_ : String) : Except Error ListEvent :=
  .ok .E

/-- The Set collection's type-specific event type
(src/collections/set.rs lines 14-16): it has no variants. -/
inductive SetEvent where
deriving DecidableEq

/-- The `FromStr for SetEvent` impl (src/collections/set.rs lines 18-29):
every payload is rejected with an error carrying the collection kind name
"Set" and the offending payload. -/
def SetEvent.fromStr (s : String) : Except Error SetEvent :=
  .error (.invalidNotification "Set" s)

/-- One item as the Watcher's producer thread sends it over the channel
(src/collections/mod.rs lines 69-75): the payload string of a received
notification message is parsed into a `WatchEvent` and the resulting
`Result`, mapped under `Some`, is pushed onto the channel. -/
def producerItem (parse : String → Except Error ε) (payload : String) :
    Except Error (Option (WatchEvent ε)) :=
  (WatchEvent.fromStr parse payload).map some

/-- State of the unbounded channel between a Watcher's producer thread and
its consumer stream: the queued items in delivery order, and whether the
producer endpoint is still connected. -/
structure Channel (ε : Type) where
  queue : List (Except Error (Option (WatchEvent ε)))
  connected : Bool

/-- Result of polling the Watcher stream, the `Poll<Option<Item>, Error>` of
the `Stream for Watcher<T>` impl: a ready item, not-ready (suspension), an
error item, or the process abort that `panic!` causes on channel
disconnection. -/
inductive PollRes (ε : Type) where
  | ready (item : Option (WatchEvent ε))
  | notReady
  | errored (e : Error)
  | panicked
deriving DecidableEq

/-- One poll of the Watcher stream (src/collections/mod.rs lines 87-101):
a non-blocking receive that yields the next queued item (a ready event or a
single error item), reports not-ready when the queue is empty and the
producer is connected, and panics when the queue is empty and the producer
has disconnected. Returns the poll result and the channel state afterwards. -/
def Watcher.poll (ch : Channel ε) : PollRes ε × Channel ε :=
  match ch.queue with
  | item :: rest =>
    match item with
    | .ok ev => (.ready ev, ⟨rest, ch.connected⟩)
    | .error e => (.errored e, ⟨rest, ch.connected⟩)
  | [] => if ch.connected then (.notReady, ch) else (.panicked, ch)

/-- Connection parameters extracted from the address: scheme-qualified host,
optional port (default 6379), optional database index (default 0). -/
structure ConnectionInfo where
  host : String
  port : Nat
  db : Nat
deriving DecidableEq

/-- Splits a character list at every occurrence of a separator character; the
groups between separators, in order. -/
def splitChar (sep : Char) : List Char → List (List Char)
  | [] => [[]]
  | c :: cs =>
    let r := splitChar sep cs
    if c = sep then [] :: r
    else
      match r with
      | [] => [[c]]
      | g :: gs => (c :: g) :: gs

/-- Reads a nonempty all-digit character list as a decimal number. -/
def digitsToNat? : List Char → Option Nat
  | [] => none
  | cs =>
    cs.foldl
      (fun acc c =>
        acc.bind fun n => if c.isDigit then some (n * 10 + (c.toNat - 48)) else none)
      (some 0)

/-- Models the address validation that `Client::open` performs through
`IntoConnectionInfo` at the boundary described by the spec: a URI-like string
`redis://host[:port][/db]` with scheme, nonempty host, optional numeric port
(default 6379) and optional numeric database index (default 0); no network
I/O is involved. -/
def parseRedisUrl (addr : String) : Except RedisErr ConnectionInfo :=
  let cs := addr.data
  if cs.take 8 = "redis://".data then
    match splitChar '/' (cs.drop 8) with
    | [] => .error .invalidClientConfig
    | hostport :: path =>
      let db : Option Nat :=
        match path with
        | [] => some 0
        | [[]] => some 0
        | [d] => digitsToNat? d
        | _ => none
      let hp : Option (String × Nat) :=
        match splitChar ':' hostport with
        | [h] => if h = [] then none else some (⟨h⟩, 6379)
        | [h, p] => if h = [] then none else (digitsToNat? p).map (⟨h⟩, ·)
        | _ => none
      match hp, db with
      | some (h, p), some d => .ok ⟨h, p, d⟩
      | _, _ => .error .invalidClientConfig
  else .error .invalidClientConfig

/-- The redis `Client` held by a `Database` (src/database.rs line 11, behind
`Arc<RwLock<_>>`): it stores only the validated connection parameters and
acts as a connection factory. -/
structure Client where
  info : ConnectionInfo
deriving DecidableEq

/-- A physical connection to the store, identified by the order in which it
was opened. -/
structure Connection where
  connId : Nat
deriving DecidableEq

/-- Connection-allocation state of the environment: the id the next physical
connection will receive. -/
structure RWorld where
  nextConn : Nat
deriving DecidableEq

/-- Models `Client::get_connection` of the redis client library at its
boundary: every call establishes a new physical connection to the store (the
`Client` is a factory, not a session); the store is assumed available, as the
spec puts the remote side out of scope. -/
def Client.getConnection (_ : Client) (w : RWorld) : Connection × RWorld :=
  (⟨w.nextConn⟩, ⟨w.nextConn + 1⟩)

/-- A redis database connection handle (src/database.rs lines 9-12): shared
ownership of one `Client`. -/
structure Database where
  client : Client
deriving DecidableEq

/-- Connects to a database at the provided address, i.e. `Database::new`
(src/database.rs lines 20-27): runs `Client::open` on the address — address
validation only, no network I/O (the returned world is untouched) — and wraps
the resulting client. The computation sits inside a `lazy` future in the
source; this definition is that computation as it runs when the future is
resolved, which is when the caller first obtains the `Database` value. -/
def Database.new (addr : String) (w : RWorld) : Except RedisErr Database × RWorld :=
  ((parseRedisUrl addr).map fun i => ⟨⟨i⟩⟩, w)

/-- The handle `List::get` constructs (src/collections/list.rs lines 40-46):
the key namespaced with the list tag, and the connection — freshly wrapped in
its own `Arc<RwLock<_>>` — that the handle's operations and watchers share. -/
structure ListHandle where
  key : String
  connId : Nat
deriving DecidableEq

/-- Constructs a `List` handle from a name and a connection, i.e. `List::get`
(src/collections/list.rs lines 40-46): prepends the `_orm_list:` namespace
tag and takes ownership of the provided connection. -/
def listGet (name : String) (conn : Connection) : ListHandle :=
  ⟨"_orm_list:" ++ name, conn.connId⟩

/-- Gets a list collection at the specified key, i.e.
`Database::get::<List<T>>` (src/database.rs lines 29-39): takes a read lock
on the shared client, obtains a connection from it (`get_connection`), and
hands that connection to `List::get`. -/
def Database.getList (db : Database) (name : String) (w : RWorld) :
    ListHandle × RWorld :=
  let r := db.client.getConnection w
  (listGet name r.1, r.2)

/-- A redis reply value as the wire protocol delivers it: nil, integer,
status line, the OK status, or a bulk byte string. -/
inductive Reply where
  | nil
  | int (n : Int)
  | status (s : String)
  | okay
  | data (b : Cbor)
deriving DecidableEq

/-- The flat keyspace of the store, as far as the DEL command observes it:
the keys currently present, each with its stored list value. -/
def Store := List (String × List Cbor)

/-- The DEL command issued with one key: deletes the key if present and
replies with the number of keys removed — an integer reply. -/
def delCmd (st : Store) (key : String) : Reply × Store :=
  let present := (List.lookup key st).isSome
  (.int (if present then 1 else 0),
   List.filter (fun p => decide (¬ p.1 = key)) st)

/-- Conversion of a redis reply to a Rust `String`, as the redis client
library (the crate's era, redis 0.x) performs it for `query::<String>`: a
status reply and the OK reply are string compatible, a bulk reply is string
compatible when its bytes are valid UTF-8, and every other reply — in
particular an integer reply — fails with "Response type not string
compatible". No command in this repository converts a bulk reply to `String`
(LSET and LTRIM reply with OK, the case below that matters is the integer
reply of DEL), so the bulk arm's UTF-8 decoding is folded into the
incompatible case here. -/
def stringOfReply : Reply → Except Error String
  | .okay => .ok "OK"
  | .status s => .ok s
  | _ => .error (.redisError .typeError)

/-- Removes a key from the database, i.e. the blanket `Key::remove`
(src/collections/mod.rs lines 131-140): issues a single DEL command against
the collection's namespaced key and converts the reply to a `String`
(`let _: String = redis::cmd("DEL") ...`), discarding the value; a conversion
failure propagates through `?` as the operation's error. -/
def Key.remove (st : Store) (key : String) : Except Error (Unit × Store) :=
  let r := delCmd st key
  match stringOfReply r.1 with
  | .ok _ => .ok ((), r.2)
  | .error e => .error e

/-- Reports whether a result is a success, used to compare the outcome of two
fallible computations. -/
def exOk : Except ε α → Bool
  | .ok _ => true
  | .error _ => false

example : RList.pushBack cInt [] 1 = (.ok (), [.int 1]) := rfl

example : RList.popFront cInt [.int 2, .int 1] = (.ok (some 1), [.int 2]) := rfl

example : RList.popFront cOptInt [.int 2, .null] = (.ok none, [.int 2]) := rfl

example : RList.index cInt [.int 10, .int 20, .int 30] 0 = .ok 10 := rfl

example : RList.index cInt [.int 10, .int 20, .int 30] (-1) = .ok 30 := rfl

example : RList.index cInt [.int 10, .int 20, .int 30] 3
    = .error (.redisError .typeError) := rfl

example : RList.index cInt [.int 10, .int 20, .int 30] (-4)
    = .error (.redisError .typeError) := rfl

example : RList.remove cInt [.int 1, .int 2, .int 1, .int 1] 2 1
    = (.ok 2, [.int 2, .int 1]) := rfl

example : RList.remove cInt [.int 1, .int 2, .int 1] 0 1
    = (.ok 2, [.int 2]) := rfl

example : lrem [.int 1, .int 2, .int 1] (-1) (.int 1)
    = ([.int 1, .int 2], 1) := rfl

example : RList.insertBefore cInt [.int 1, .int 2] 2 9
    = (.ok true, [.int 1, .int 9, .int 2]) := rfl

example : RList.insertAfter cInt [.int 1, .int 2] 1 9
    = (.ok true, [.int 1, .int 9, .int 2]) := rfl

example : RList.insertBefore cInt [.int 1] 7 9 = (.ok false, [.int 1]) := rfl

example : RList.insertBefore cInt [] (7 : Int) 9 = (.ok true, []) := rfl

example : parseRedisUrl "redis://127.0.0.1/" = .ok ⟨"127.0.0.1", 6379, 0⟩ := by decide

example : parseRedisUrl "redis://localhost:7000/3" = .ok ⟨"localhost", 7000, 3⟩ := by decide

example : parseRedisUrl "http://127.0.0.1/" = .error .invalidClientConfig := by decide

example :
    (Database.getList ⟨⟨⟨"127.0.0.1", 6379, 0⟩⟩⟩ "people" ⟨0⟩).1
      = ⟨"_orm_list:people", 0⟩ := rfl

example : Key.remove [] "_orm_list:people" = .error (.redisError .typeError) := rfl

example : Key.remove [("_orm_list:people", [.int 1])] "_orm_list:people"
    = .error (.redisError .typeError) := rfl

lemma decodeOpt_of_ne_null (c : Codec α) (b : Cbor) (h : b ≠ .null) :
    decodeOpt c b = (c.dec b).map some := by
  cases b with
  | null => exact absurd rfl h
  | int n => rfl
  | text s => rfl

/-- C1: every `Database::get` call takes a fresh physical connection from the
shared client, so two collection handles obtained through `get` never share
an underlying connection: their connection ids are the consecutive values of
the allocation counter, hence distinct. Each handle wraps its own connection
in its own lock (`List::get`, src/collections/list.rs line 43), so mutual
exclusion holds only within one handle, not across handles. -/
theorem c1_each_get_opens_a_fresh_connection :
    ∀ (db : Database) (n₁ n₂ : String) (w : RWorld),
    (db.getList n₁ w).1.connId = w.nextConn
    ∧ (db.getList n₂ (db.getList n₁ w).2).1.connId = w.nextConn + 1
    ∧ (db.getList n₁ w).1.connId ≠ (db.getList n₂ (db.getList n₁ w).2).1.connId := by
  intro db n₁ n₂ w
  refine ⟨rfl, rfl, ?_⟩
  simp [Database.getList, listGet, Client.getConnection]

/-- C1 counterexample: on one concrete `Database`, the handles produced by two
successive `get` calls hold connections 0 and 1 — not the same underlying
physical connection, contradicting the claimed single-session invariant. -/
theorem c1_counterexample_two_gets_two_connections :
    (Database.getList ⟨⟨⟨"127.0.0.1", 6379, 0⟩⟩⟩ "a" ⟨0⟩).1.connId
      ≠ (Database.getList ⟨⟨⟨"127.0.0.1", 6379, 0⟩⟩⟩ "b"
          (Database.getList ⟨⟨⟨"127.0.0.1", 6379, 0⟩⟩⟩ "a" ⟨0⟩).2).1.connId := by
  decide

/-- C5: the generic `Key::remove` never succeeds. It issues a single DEL
against the namespaced key, whose reply is always an integer, but the source
requests the reply as a `String` (`let _: String`), and an integer reply is
not string compatible, so the operation returns a type-mismatch redis error —
on an existing key and on a nonexistent key alike, contrary to the documented
silent idempotent success. -/
theorem c5_remove_always_fails_with_type_error :
    ∀ (st : Store) (key : String),
    (∃ n : Int, (delCmd st key).1 = .int n)
    ∧ Key.remove st key = .error (.redisError .typeError) := by
  intro st key
  exact ⟨⟨if (List.lookup key st).isSome then 1 else 0, rfl⟩, rfl⟩

/-- C7: `Database::new` validates the address and does nothing else: the
connection-allocation world is returned untouched (no network I/O, no
connection opened), the construction succeeds exactly when the address
parses, a parse error is surfaced as the construction's error, and a valid
address yields the handle immediately. -/
theorem c7_new_validates_address_eagerly_without_io :
    ∀ (addr : String) (w : RWorld),
    (Database.new addr w).2 = w
    ∧ exOk (Database.new addr w).1 = exOk (parseRedisUrl addr)
    ∧ (∀ e, parseRedisUrl addr = .error e → (Database.new addr w).1 = .error e)
    ∧ (∀ i, parseRedisUrl addr = .ok i → (Database.new addr w).1 = .ok ⟨⟨i⟩⟩) := by
  intro addr w
  refine ⟨rfl, ?_, ?_, ?_⟩
  · cases h : parseRedisUrl addr <;> simp [Database.new, h, exOk, Except.map]
  · intro e h; simp [Database.new, h, Except.map]
  · intro i h; simp [Database.new, h, Except.map]

/-- C7 witness: a malformed address (wrong scheme) is rejected by `new` with
the world untouched, and a well-formed address yields a handle. -/
theorem c7_witness :
    (Database.new "http://127.0.0.1/" ⟨0⟩).2 = ⟨0⟩
    ∧ parseRedisUrl "http://127.0.0.1/" = .error .invalidClientConfig
    ∧ (Database.new "http://127.0.0.1/" ⟨0⟩).1 = .error .invalidClientConfig
    ∧ parseRedisUrl "redis://127.0.0.1/" = .ok ⟨"127.0.0.1", 6379, 0⟩
    ∧ (Database.new "redis://127.0.0.1/" ⟨0⟩).1 = .ok ⟨⟨⟨"127.0.0.1", 6379, 0⟩⟩⟩ :=
  ⟨(c7_new_validates_address_eagerly_without_io "http://127.0.0.1/" ⟨0⟩).1,
   by decide,
   (c7_new_validates_address_eagerly_without_io "http://127.0.0.1/" ⟨0⟩).2.2.1
     .invalidClientConfig (by decide),
   by decide,
   (c7_new_validates_address_eagerly_without_io "redis://127.0.0.1/" ⟨0⟩).2.2.2
     ⟨"127.0.0.1", 6379, 0⟩ (by decide)⟩

/-- C3: for the List and the Set collection kind alike — and in fact for any
kind-specific parser — the payload "del" parses to `Generic(Remove)`, and any
other payload is handed to the collection kind's own parser, whose result is
wrapped as `TypeSpecific`. -/
theorem c3_del_is_generic_remove_rest_delegated :
    ∀ (s : String),
    (∀ (ε : Type) (parse : String → Except Error ε),
        WatchEvent.fromStr parse "del" = .ok (.generic .remove))
    ∧ (s ≠ "del" →
        WatchEvent.fromStr ListEvent.fromStr s = (ListEvent.fromStr s).map .typeSpecific
        ∧ WatchEvent.fromStr SetEvent.fromStr s = (SetEvent.fromStr s).map .typeSpecific) := by
  intro s
  constructor
  · intro ε parse; rfl
  · intro h
    exact ⟨by simp [WatchEvent.fromStr, h], by simp [WatchEvent.fromStr, h]⟩

/-- C3 witness: the payload "rpush" is not "del" and is delegated to the
kind-specific parsers of both collection kinds. -/
theorem c3_witness :
    ("rpush" ≠ "del")
    ∧ (WatchEvent.fromStr ListEvent.fromStr "rpush"
          = (ListEvent.fromStr "rpush").map .typeSpecific
       ∧ WatchEvent.fromStr SetEvent.fromStr "rpush"
          = (SetEvent.fromStr "rpush").map .typeSpecific) :=
  ⟨by decide, (c3_del_is_generic_remove_rest_delegated "rpush").2 (by decide)⟩

/-- C4: any payload other than "del" received on a watched Set key parses to
an error carrying the collection kind name "Set" and the offending payload;
the producer pushes that error onto the channel, and one poll of the Watcher
stream yields exactly this error item while leaving the rest of the queue and
the channel's connected state intact — the stream is not terminated. -/
theorem c4_set_parse_error_is_one_stream_item :
    ∀ (s : String) (rest : List (Except Error (Option (WatchEvent SetEvent))))
      (alive : Bool),
    s ≠ "del" →
    SetEvent.fromStr s = .error (.invalidNotification "Set" s)
    ∧ producerItem SetEvent.fromStr s = .error (.invalidNotification "Set" s)
    ∧ Watcher.poll ⟨producerItem SetEvent.fromStr s :: rest, alive⟩
        = (.errored (.invalidNotification "Set" s), ⟨rest, alive⟩) := by
  intro s rest alive h
  refine ⟨rfl, ?_, ?_⟩
  · simp [producerItem, WatchEvent.fromStr, h, SetEvent.fromStr, Except.map]
  · simp [Watcher.poll, producerItem, WatchEvent.fromStr, h, SetEvent.fromStr, Except.map]

/-- C4 witness: the payload "sadd" on a watched Set key becomes the error
item carrying "Set" and "sadd", and polling delivers it leaving the channel
open. -/
theorem c4_witness :
    ("sadd" ≠ "del")
    ∧ (SetEvent.fromStr "sadd" = .error (.invalidNotification "Set" "sadd")
       ∧ producerItem SetEvent.fromStr "sadd"
           = .error (.invalidNotification "Set" "sadd")
       ∧ Watcher.poll ⟨producerItem SetEvent.fromStr "sadd" :: [], true⟩
           = (.errored (.invalidNotification "Set" "sadd"), ⟨[], true⟩)) :=
  ⟨by decide, c4_set_parse_error_is_one_stream_item "sadd" [] true (by decide)⟩

/-- C10: `pop_front` and `pop_back` decode the removed byte string at type
`Option<T>`, so an element stored as the codec's null value pops as the empty
result `None` — byte-for-byte the same outcome as popping an empty list —
and `None` of an `Option` element type is exactly such an element
(`cOptInt.enc none = null`). -/
theorem c10_null_element_pops_as_empty_result :
    ∀ (α : Type) (c : Codec α) (l : List Cbor),
    RList.popFront c (l ++ [Cbor.null]) = (.ok none, l)
    ∧ RList.popBack c (Cbor.null :: l) = (.ok none, l)
    ∧ RList.popFront c ([] : List Cbor) = (.ok none, [])
    ∧ RList.popBack c ([] : List Cbor) = (.ok none, [])
    ∧ cOptInt.enc none = Cbor.null := by
  intro α c l
  refine ⟨?_, rfl, rfl, rfl, rfl⟩
  simp [RList.popFront, List.getLast?_concat, List.dropLast_concat, decodeOpt, liftSerde]

/-- C8 counterexample: two falsifying instances of the claimed universal FIFO
behaviour. First, on a list that already holds an element (the encoding of 7),
push_back(1); push_back(2); pop_front returns the pre-existing element 7, not
1. Second, with an `Option Int` element type, push_back(None);
push_back(Some 5); pop_front returns the empty result `None : Option (Option
Int)` — not `Some None`, i.e. not the pushed element `a` — because `None`
is stored as the CBOR null value and `pop_front` decodes at `Option<T>`. -/
theorem c8_counterexample_preexisting_and_null_elements :
    ((RList.pushBack cInt [Cbor.int 7] 1).2 = [Cbor.int 1, Cbor.int 7]
     ∧ (RList.pushBack cInt [Cbor.int 1, Cbor.int 7] 2).2
         = [Cbor.int 2, Cbor.int 1, Cbor.int 7]
     ∧ (RList.popFront cInt [Cbor.int 2, Cbor.int 1, Cbor.int 7]).1 = .ok (some 7)
     ∧ (Except.ok (some (7 : Int)) : Except Error (Option Int)) ≠ .ok (some 1))
    ∧ ((RList.pushBack cOptInt [] none).2 = [Cbor.null]
       ∧ (RList.pushBack cOptInt [Cbor.null] (some 5)).2 = [Cbor.int 5, Cbor.null]
       ∧ (RList.popFront cOptInt [Cbor.int 5, Cbor.null]).1 = .ok none
       ∧ (Except.ok (none : Option (Option Int)) : Except Error (Option (Option Int)))
           ≠ .ok (some none)) := by
  refine ⟨⟨rfl, rfl, rfl, by decide⟩, rfl, rfl, rfl, by decide⟩

/-- C8 amended: starting from the empty list (nonexistent key), push_back(a)
then push_back(b) and two pop_front calls yield `a` first and `b` second —
the FIFO queue behaviour — provided neither element's serialized encoding is
the CBOR null value (such an element pops as the empty result instead, and a
nonempty starting list pops its pre-existing tail elements first). -/
theorem c8_amended_push_back_pop_front_is_fifo :
    ∀ (α : Type) (c : Codec α) (a b : α),
    c.enc a ≠ Cbor.null → c.enc b ≠ Cbor.null →
    (RList.popFront c (RList.pushBack c (RList.pushBack c [] a).2 b).2).1
        = .ok (some a)
    ∧ (RList.popFront c
        (RList.popFront c (RList.pushBack c (RList.pushBack c [] a).2 b).2).2).1
        = .ok (some b)
    ∧ (RList.popFront c
        (RList.popFront c (RList.pushBack c (RList.pushBack c [] a).2 b).2).2).2
        = [] := by
  intro α c a b ha hb
  have hpush : (RList.pushBack c (RList.pushBack c [] a).2 b).2
      = [c.enc b, c.enc a] := rfl
  have h1 : RList.popFront c [c.enc b, c.enc a]
      = (.ok (some a), [c.enc b]) := by
    simp [RList.popFront, List.getLast?, decodeOpt_of_ne_null c _ ha, c.law, liftSerde,
      Except.map, List.dropLast]
  have h2 : RList.popFront c [c.enc b] = (.ok (some b), []) := by
    simp [RList.popFront, List.getLast?, decodeOpt_of_ne_null c _ hb, c.law, liftSerde,
      Except.map, List.dropLast]
  rw [hpush, h1]
  rw [h2]
  exact ⟨rfl, rfl, rfl⟩

/-- C8 witness: with integer elements 1 and 2 (neither encoding to null), the
push_back/pop_front pair behaves as a FIFO queue on an initially empty
list. -/
theorem c8_witness :
    (cInt.enc 1 ≠ Cbor.null ∧ cInt.enc 2 ≠ Cbor.null)
    ∧ ((RList.popFront cInt (RList.pushBack cInt (RList.pushBack cInt [] 1).2 2).2).1
          = .ok (some 1)
       ∧ (RList.popFront cInt
            (RList.popFront cInt
              (RList.pushBack cInt (RList.pushBack cInt [] 1).2 2).2).2).1
          = .ok (some 2)
       ∧ (RList.popFront cInt
            (RList.popFront cInt
              (RList.pushBack cInt (RList.pushBack cInt [] 1).2 2).2).2).2
          = []) :=
  ⟨⟨by decide, by decide⟩,
   c8_amended_push_back_pop_front_is_fifo Int cInt 1 2 (by decide) (by decide)⟩

/-- C9: on a stored list holding the encodings of `xs`, `index(0)` returns
the first element, `index(-1)` returns the last element (negative indices
count from the tail), and any index designating no existing element — in
particular `index(n)` for a list of length `n` — returns an error, never an
empty result. -/
theorem c9_index_semantics :
    ∀ (α : Type) (c : Codec α) (xs : List α) (i : Int),
    (∀ (h : xs ≠ []),
      RList.index c (xs.map c.enc) 0 = .ok (xs.head h)
      ∧ RList.index c (xs.map c.enc) (-1) = .ok (xs.getLast h))
    ∧ (RList.index c (xs.map c.enc) (xs.length : Int)
        = .error (.redisError .typeError))
    ∧ ((xs.length : Int) ≤ i ∨ i < -(xs.length : Int) →
        RList.index c (xs.map c.enc) i = .error (.redisError .typeError)) := by
  intro α c xs i
  have hl : (xs.map c.enc).length = xs.length := List.length_map xs c.enc
  have hout : ∀ (k : Int), (xs.length : Int) ≤ k ∨ k < -(xs.length : Int) →
      RList.index c (xs.map c.enc) k = .error (.redisError .typeError) := by
    intro k hk
    have hnone : lindex (xs.map c.enc) k = none := by
      rcases hk with hk | hk
      · have h0 : ¬ (k < 0) := by omega
        simp only [lindex, if_neg h0, if_pos (by omega : (0 : Int) ≤ k)]
        exact List.getElem?_eq_none (by rw [hl]; omega)
      · have h0 : k < 0 := by omega
        simp only [lindex, if_pos h0, hl]
        rw [if_neg (by omega)]
    simp [RList.index, hnone]
  refine ⟨?_, hout _ (by omega), hout i⟩
  intro h
  obtain ⟨x, xs', rfl⟩ := List.exists_cons_of_ne_nil h
  constructor
  · have h0 : lindex ((x :: xs').map c.enc) 0 = some (c.enc x) := by
      simp [lindex]
    simp only [RList.index, h0, c.law, liftSerde, List.head_cons]
  · have hj : ((((x :: xs').map c.enc).length : Int) + (-1)).toNat = xs'.length := by
      simp [hl]
    have hlast : ((x :: xs').map c.enc)[xs'.length]?
        = some (c.enc ((x :: xs').getLast h)) := by
      have hb : xs'.length < ((x :: xs').map c.enc).length := by simp
      have hb2 : xs'.length < (x :: xs').length := by simp
      rw [List.getElem?_eq_getElem hb, List.getElem_map]
      have hg : (x :: xs').getLast h = (x :: xs')[xs'.length] := by
        rw [List.getLast_eq_getElem]
        simp
      rw [hg]
    have h1 : lindex ((x :: xs').map c.enc) (-1) = some (c.enc ((x :: xs').getLast h)) := by
      simp only [lindex, if_pos (by omega : (-1 : Int) < 0)]
      rw [if_pos (by simp), hj, hlast]
    simp only [RList.index, h1, c.law, liftSerde]

/-- C9 witness: on the stored list [10, 20, 30], index 0 is 10, index -1 is
30, index 3 (the length) errors, and the out-of-range index 5 errors. -/
theorem c9_witness :
    (([10, 20, 30] : List Int) ≠ [])
    ∧ RList.index cInt ([10, 20, 30].map cInt.enc) 0 = .ok 10
    ∧ RList.index cInt ([10, 20, 30].map cInt.enc) (-1) = .ok 30
    ∧ RList.index cInt ([10, 20, 30].map cInt.enc) (([10, 20, 30] : List Int).length : Int)
        = .error (.redisError .typeError)
    ∧ (((([10, 20, 30] : List Int).length : Int) ≤ 5 ∨ (5 : Int) < -(([10, 20, 30] : List Int).length : Int)))
    ∧ RList.index cInt ([10, 20, 30].map cInt.enc) 5 = .error (.redisError .typeError) := by
  have h := c9_index_semantics Int cInt [10, 20, 30] 5
  have hne : ([10, 20, 30] : List Int) ≠ [] := by decide
  refine ⟨hne, (h.1 hne).1, (h.1 hne).2, h.2.1, Or.inl (by decide), h.2.2 (Or.inl (by decide))⟩

lemma lremPos_count : ∀ (l : List Cbor) (n : Nat) (b : Cbor),
    (lremPos l n b).2 = min n (List.count b l) := by
  intro l
  induction l with
  | nil => intro n b; cases n <;> simp [lremPos]
  | cons x xs ih =>
    intro n b
    cases n with
    | zero => simp [lremPos]
    | succ n =>
      by_cases hx : x = b
      · simp [lremPos, hx, List.count_cons, ih]
        omega
      · simp [lremPos, hx, List.count_cons, ih]

lemma lremAll_eq : ∀ (l : List Cbor) (b : Cbor),
    lremAll l b = (List.filter (fun x => decide (¬ x = b)) l, List.count b l) := by
  intro l
  induction l with
  | nil => intro b; rfl
  | cons x xs ih =>
    intro b
    by_cases hx : x = b <;>
      simp [lremAll, hx, List.count_cons, List.filter_cons, ih]

lemma lrem_ofNat (l : List Cbor) (count : Nat) (b : Cbor) :
    lrem l (count : Int) b
      = if count = 0 then lremAll l b else lremPos l count b := by
  cases count with
  | zero => simp [lrem]
  | succ n =>
    have h1 : (0 : Int) < ((n + 1 : Nat) : Int) := by exact_mod_cast Nat.succ_pos n
    simp [lrem, h1]

/-- C2: the `count` parameter of `List::remove` has the unsigned type `u32`,
so the LREM command argument is always the nonnegative integer
`Int.ofNat count` and the tail-to-head scan that both the spec and the
source's own doc comment promise for negative counts is unreachable: for
every representable count the behaviour is the head-to-tail scan (`count >
0`) or remove-all (`count == 0`). For the representable modes the claim's
description holds: at most `count` occurrences are removed head to tail and
the reply is the number actually removed (`min count occurrences`), while
`count == 0` removes every occurrence. -/
theorem c2_unsigned_count_never_scans_tail_to_head :
    ∀ (α : Type) (c : Codec α) (l : List Cbor) (count n : Nat) (item : α) (b : Cbor),
    RList.remove c l count item
      = (.ok (if count = 0 then lremAll l (c.enc item) else lremPos l count (c.enc item)).2,
         (if count = 0 then lremAll l (c.enc item) else lremPos l count (c.enc item)).1)
    ∧ (lremPos l n b).2 = min n (List.count b l)
    ∧ lremAll l b = (List.filter (fun x => decide (¬ x = b)) l, List.count b l) := by
  intro α c l count n item b
  refine ⟨?_, lremPos_count l n b, lremAll_eq l b⟩
  simp [RList.remove, lrem_ofNat]

lemma linsertB_of_not_mem (pb vb : Cbor) :
    ∀ (l : List Cbor), pb ∉ l → linsertB pb vb l = none := by
  intro l
  induction l with
  | nil => intro _; rfl
  | cons x xs ih =>
    intro h
    have hx : ¬ x = pb := fun he => h (he ▸ List.mem_cons_self x xs)
    have hxs : pb ∉ xs := fun hm => h (List.mem_cons_of_mem x hm)
    simp [linsertB, hx, ih hxs]

lemma linsertA_of_not_mem (pb vb : Cbor) :
    ∀ (l : List Cbor), pb ∉ l → linsertA pb vb l = none := by
  intro l
  induction l with
  | nil => intro _; rfl
  | cons x xs ih =>
    intro h
    have hx : ¬ x = pb := fun he => h (he ▸ List.mem_cons_self x xs)
    have hxs : pb ∉ xs := fun hm => h (List.mem_cons_of_mem x hm)
    simp [linsertA, hx, ih hxs]

lemma linsertB_of_mem (pb vb : Cbor) :
    ∀ (l : List Cbor), pb ∈ l →
    linsertB pb vb l
      = some (l.takeWhile (fun x => decide (¬ x = pb))
          ++ vb :: pb :: (l.dropWhile (fun x => decide (¬ x = pb))).tail) := by
  intro l
  induction l with
  | nil => intro h; exact absurd h (List.not_mem_nil pb)
  | cons x xs ih =>
    intro h
    by_cases hx : x = pb
    · subst hx
      simp [linsertB, List.takeWhile_cons, List.dropWhile_cons]
    · have hxs : pb ∈ xs := by
        rcases List.mem_cons.mp h with he | hm
        · exact absurd he.symm hx
        · exact hm
      simp [linsertB, hx, ih hxs, List.takeWhile_cons, List.dropWhile_cons]

lemma linsertA_of_mem (pb vb : Cbor) :
    ∀ (l : List Cbor), pb ∈ l →
    linsertA pb vb l
      = some (l.takeWhile (fun x => decide (¬ x = pb))
          ++ pb :: vb :: (l.dropWhile (fun x => decide (¬ x = pb))).tail) := by
  intro l
  induction l with
  | nil => intro h; exact absurd h (List.not_mem_nil pb)
  | cons x xs ih =>
    intro h
    by_cases hx : x = pb
    · subst hx
      simp [linsertA, List.takeWhile_cons, List.dropWhile_cons]
    · have hxs : pb ∈ xs := by
        rcases List.mem_cons.mp h with he | hm
        · exact absurd he.symm hx
        · exact hm
      simp [linsertA, hx, ih hxs, List.takeWhile_cons, List.dropWhile_cons]

/-- C6 amended: `insert_before`/`insert_after` return `reply != -1`. When the
pivot occurs in a nonempty stored list, the value is inserted adjacent to the
pivot's first occurrence and the return is true; when the pivot is absent
from a nonempty list, the return is false and the list is unchanged; but when
the key does not exist (empty list) the LINSERT reply is 0, so the return is
true even though no insertion occurred. -/
theorem c6_insert_returns_reply_ne_neg_one :
    ∀ (α : Type) (c : Codec α) (l : List Cbor) (p v : α),
    (l = [] → RList.insertBefore c l p v = (.ok true, l)
              ∧ RList.insertAfter c l p v = (.ok true, l))
    ∧ (l ≠ [] → c.enc p ∉ l →
        RList.insertBefore c l p v = (.ok false, l)
        ∧ RList.insertAfter c l p v = (.ok false, l))
    ∧ (c.enc p ∈ l →
        RList.insertBefore c l p v
          = (.ok true, l.takeWhile (fun x => decide (¬ x = c.enc p))
              ++ c.enc v :: c.enc p :: (l.dropWhile (fun x => decide (¬ x = c.enc p))).tail)
        ∧ RList.insertAfter c l p v
          = (.ok true, l.takeWhile (fun x => decide (¬ x = c.enc p))
              ++ c.enc p :: c.enc v :: (l.dropWhile (fun x => decide (¬ x = c.enc p))).tail)) := by
  intro α c l p v
  refine ⟨?_, ?_, ?_⟩
  · intro he
    subst he
    exact ⟨rfl, rfl⟩
  · intro hne hnm
    constructor
    · simp [RList.insertBefore, linsertReply, hne, linsertB_of_not_mem _ _ _ hnm]
    · simp [RList.insertAfter, linsertReply, hne, linsertA_of_not_mem _ _ _ hnm]
  · intro hm
    have hne : l ≠ [] := by
      intro he
      rw [he] at hm
      exact (List.not_mem_nil _) hm
    constructor
    · simp [RList.insertBefore, linsertReply, hne, linsertB_of_mem _ _ _ hm, bne]
      omega
    · simp [RList.insertAfter, linsertReply, hne, linsertA_of_mem _ _ _ hm, bne]
      omega

/-- C6 counterexample: inserting around a pivot in a nonexistent list (empty,
i.e. the key does not exist) returns true with no insertion performed,
whereas the claim requires the return to be false in that situation. -/
theorem c6_counterexample_missing_key_returns_true :
    RList.insertBefore cInt [] (7 : Int) 9 = (.ok true, [])
    ∧ RList.insertAfter cInt [] (7 : Int) 9 = (.ok true, [])
    ∧ Cbor.int 7 ∉ ([] : List Cbor) := by
  exact ⟨rfl, rfl, by decide⟩

/-- C6 witness: on the stored list [1, 2] with pivot 2 and value 9, the
insertions land adjacent to the pivot and return true, and on the empty list
the operations return true. -/
theorem c6_witness :
    (Cbor.int 2 ∈ [Cbor.int 1, Cbor.int 2])
    ∧ (RList.insertBefore cInt [Cbor.int 1, Cbor.int 2] 2 9
        = (.ok true, [Cbor.int 1, Cbor.int 2].takeWhile (fun x => decide (¬ x = cInt.enc 2))
            ++ cInt.enc 9 :: cInt.enc 2
              :: ([Cbor.int 1, Cbor.int 2].dropWhile (fun x => decide (¬ x = cInt.enc 2))).tail)
       ∧ RList.insertAfter cInt [Cbor.int 1, Cbor.int 2] 2 9
        = (.ok true, [Cbor.int 1, Cbor.int 2].takeWhile (fun x => decide (¬ x = cInt.enc 2))
            ++ cInt.enc 2 :: cInt.enc 9
              :: ([Cbor.int 1, Cbor.int 2].dropWhile (fun x => decide (¬ x = cInt.enc 2))).tail)) :=
  ⟨by decide,
   (c6_insert_returns_reply_ne_neg_one Int cInt [Cbor.int 1, Cbor.int 2] 2 9).2.2 (by decide)⟩
